import Mathlib

/-!
# Verification of the Google-Sheets tabular store adapter

Shallow embedding of `google_sheets_store.py`: a remote worksheet is a grid
of string cells (`Ws`), records are ordered association lists, and each
public operation of the module is translated into a pure Lean function on
that state.  Remote-library calls (`gspread`) are modelled by the small
grid primitives below: `col_values`/`row_values` read a column/row padding
absent cells with `""`, `update ("A" ++ r)` replaces a whole row, and
`append_row` adds a row at the bottom.
-/

namespace SheetsStore

/-- A cell of the remote grid; gspread reports every cell as a string. -/
abbrev Cell := String

/-- Python `str.strip()`: drop leading and trailing whitespace characters.
Written on the character list so that it evaluates in the kernel. -/
def pyStrip (s : String) : String :=
  ⟨((s.data.dropWhile Char.isWhitespace).reverse.dropWhile Char.isWhitespace).reverse⟩

/-- One row of the worksheet grid. -/
abbrev Row := List Cell

/-- A worksheet: the meaningful rows of the grid, top to bottom.
Row 1 of the sheet is index 0 here. -/
abbrev Ws := List Row

/-- Cell `i` (0-based) of a row; absent cells read as the empty string. -/
def cellAt (r : Row) (i : Nat) : Cell := r.getD i ""

/-- Model of `ws.col_values (idx+1)`: the column at 0-based index `idx`,
one value per grid row, absent cells as `""`. -/
def colValues (ws : Ws) (idx : Nat) : List Cell :=
  ws.map (fun r => cellAt r idx)

/-- Model of `ws.row_values i` for 1-based sheet row `i = j+1`: the stored row,
or `[]` when the grid has no such row. -/
def rowValues (ws : Ws) (j : Nat) : Row := ws.getD j []

/-- Model of `ws.update ("A" ++ toString (j+1)) [vals]`: replace row at 0-based
index `j` by `vals`, extending the grid with blank rows if needed. -/
def setRow (ws : Ws) (j : Nat) (vals : Row) : Ws :=
  if j < ws.length then ws.set j vals
  else ws ++ List.replicate (j - ws.length) [] ++ [vals]

/-- A row whose every cell is empty: `row_values` reports it as `[]`,
so `if not first:` treats it like an absent row. -/
def rowIsBlank (r : Row) : Bool := r.all (fun c => c = "")

/-- A record (`Dict` in the source): ordered association list from column
name to string value, mirroring Python dict insertion order. -/
abbrev Record := List (String × String)

/-- Model of `str(row.get(c, ""))` for a record of string values. -/
def recGet (rec : Record) (c : String) : String :=
  match rec.lookup c with
  | some v => v
  | none => ""

/-- The worksheet-level effect of `_ensure_worksheet` on an existing
worksheet `ws` when called with `headers`: if `headers` is truthy and the
first row is absent/blank, write the header row at `A1`; otherwise leave
the grid alone. -/
def ensureWorksheetWs (headers : Option (List String)) (ws : Ws) : Ws :=
  match headers with
  | none => ws
  | some hs =>
    if hs.isEmpty then ws
    else if rowIsBlank (ws.headD []) then setRow ws 0 hs
    else ws

/-- The scan loop of `upsert_sheet_row` / `update_sheet_fields_by_id`:
`for i, v in enumerate(existing[1:], start=2): if str(v).strip() == kv: ...`
starting the count at `start`; returns the 1-based sheet row of the first
trim-match. -/
def scanKeyRows (vals : List Cell) (kv : String) (start : Nat) : Option Nat :=
  match vals with
  | [] => none
  | v :: rest => if pyStrip v = kv then some start else scanKeyRows rest kv (start + 1)

/-- First 1-based sheet row (≥ 2) among the data rows whose trimmed cell
equals `kv`; `none` when no data row matches. -/
def findKeyRow (existing : List Cell) (kv : String) : Option Nat :=
  scanKeyRows (existing.drop 1) kv 2

/-- The function `upsert_sheet_row` after a successful `_open_spreadsheet`, acting on
the named worksheet's grid `ws`.  Returns the boolean result and the new
grid. -/
def upsert_sheet_row (row : Record) (key_col : String)
    (headers0 : Option (List String)) (ws0 : Ws) : Bool × Ws :=
  let headers := match headers0 with
    | some h => h
    | none => row.map Prod.fst
  let ws := ensureWorksheetWs (some headers) ws0
  let key_value := pyStrip (recGet row key_col)
  if key_value = "" then (false, ws)
  else
    match headers.indexOf? key_col with
    | none => (false, ws)
    | some kidx =>
      let existing := colValues ws kidx
      let out_row := headers.map (fun c => recGet row c)
      match findKeyRow existing key_value with
      | none => (true, ws ++ [out_row])
      | some i => (true, setRow ws (i - 1) out_row)

/-- The `updates` dict of `update_sheet_fields_by_id`: values may be
Python `None` (modelled `none`), which the source turns into `""`. -/
abbrev Updates := List (String × Option String)

/-- Model of `"" if v is None else str(v)`. -/
def updVal (v : Option String) : String := v.getD ""

/-- The `for k, v in updates.items()` loop: for each update key present in
the header, overwrite the cell at that key's (first) header position. -/
def applyUpdates (headers : List String) (updates : Updates) (cur : Row) : Row :=
  updates.foldl
    (fun cur kv =>
      if headers.contains kv.1 then cur.set (headers.indexOf kv.1) (updVal kv.2)
      else cur)
    cur

/-- The function `update_sheet_fields_by_id` after a successful `_open_spreadsheet`,
acting on the named worksheet's grid `ws` (the `_ensure_worksheet` call has
`headers=None`, so it leaves an existing grid untouched). -/
def update_sheet_fields_by_id (id_value : String) (updates : Updates)
    (key_col : String) (ws : Ws) : Bool × Ws :=
  if updates.isEmpty then (false, ws)
  else
    let headers := rowValues ws 0
    if headers.isEmpty then (false, ws)
    else if ¬ headers.contains key_col then (false, ws)
    else
      let idIdx := headers.indexOf key_col
      let rows := colValues ws idIdx
      let id_norm := pyStrip id_value
      match findKeyRow rows id_norm with
      | none => (false, ws)
      | some target =>
        let current0 := rowValues ws (target - 1)
        let current1 :=
          if current0.length < headers.length then
            current0 ++ List.replicate (headers.length - current0.length) ""
          else current0
        let current2 := applyUpdates headers updates current1
        (true, setRow ws (target - 1) current2)

/-- A pandas DataFrame as the adapter uses it: an ordered column list and
data rows aligned with those columns (cells already stringified, since
`write_sheet_df` applies `fillna("").astype(str)` before sending). -/
structure DF where
  cols : List String
  data : List Row
  deriving DecidableEq

/-- The value of column `c` in data row `r` of `df`: the cell at the
column's position, empty when the column (or cell) is absent. -/
def dfCell (df : DF) (r : Row) (c : String) : String :=
  match df.cols.indexOf? c with
  | some j => r.getD j ""
  | none => ""

/-- The helper `_normalize_df`: project every row onto the target column list,
missing columns filled with `""`, extra columns dropped, order forced. -/
def normalize_df (df : DF) (headers : Option (List String)) : DF :=
  match headers with
  | none => df
  | some hs => ⟨hs, df.data.map (fun r => hs.map (dfCell df r))⟩

/-- Structural worker for `chunkRows`; `fuel` bounds the recursion depth
so that the definition evaluates in the kernel (`fuel ≥ rows.length`
always holds at call sites). -/
def chunkRowsAux (chunk : Nat) : Nat → List Row → List (List Row)
  | _, [] => []
  | 0, _ => []
  | fuel + 1, x :: rest =>
    (x :: rest.take (chunk - 1)) :: chunkRowsAux chunk fuel (rest.drop (chunk - 1))

/-- The batching loop `for i in range(0, len(rows), chunk)` of
`write_sheet_df`: split `rows` into successive slices of `chunk` rows. -/
def chunkRows (chunk : Nat) (rows : List Row) : List (List Row) :=
  chunkRowsAux chunk rows.length rows

/-- Outcome of `write_sheet_df` once the spreadsheet is available: the
boolean result, the worksheet grid after the call, and the list of row
batches passed to `append_rows` (one network call per batch). -/
structure WriteOutcome where
  ok : Bool
  ws : Ws
  batches : List (List Row)
  deriving DecidableEq

/-- The function `write_sheet_df` after a successful `_open_spreadsheet`: normalize the
input, default `headers` to the table's own columns, ensure the worksheet,
`clear()` the grid, write the header row at `A1`, then append the data
rows in batches of 500. -/
def write_sheet_df (df : DF) (headers0 : Option (List String)) (ws0 : Ws) : WriteOutcome :=
  let target := normalize_df df headers0
  let headers := match headers0 with
    | some h => h
    | none => target.cols
  let _ws1 := ensureWorksheetWs (some headers) ws0
  let ws2 : Ws := []
  let ws3 := setRow ws2 0 headers
  if target.data.isEmpty then ⟨true, ws3, []⟩
  else
    let batches := chunkRows 500 target.data
    ⟨true, batches.foldl (fun w b => w ++ b) ws3, batches⟩

/-- Python `str.lower()` on the character list, kernel-evaluable. -/
def pyLower (s : String) : String := ⟨s.data.map Char.toLower⟩

/-- The process configuration visible to the module: the environment, the
optional Streamlit secret store (`hasStreamlit` is `st is not None`;
`secrets` its string entries; `gcpServiceAccount` the structured
`gcp_service_account` entry, opaque payload, `some ""` for a falsy/empty
document), whether `gspread`/`Credentials` imported (`libAvailable`),
the outcome of `json.loads` on a credential string (`parseJson`, `none`
when parsing raises, `some ""` for a falsy parse), and whether the
authentication handshake succeeds (`authOk`). -/
structure Config where
  env : String → Option String
  hasStreamlit : Bool
  secrets : String → Option String
  gcpServiceAccount : Option String
  libAvailable : Bool
  parseJson : String → Option String
  authOk : Bool

/-- The resolver `_secret_get`: the environment first, then the secret store under the
exact name, then under the lowercased name, then the default (`none`). -/
def _secret_get (cfg : Config) (name : String) : Option String :=
  match cfg.env name with
  | some v => some v
  | none =>
    if cfg.hasStreamlit then
      match cfg.secrets name with
      | some v => some v
      | none => cfg.secrets (pyLower name)
    else none

/-- The coercion `_to_bool` applied to the result of `_secret_get` with default
`False`: absent → `False`; a string counts as true iff its stripped,
lowercased form is one of `1/true/yes/y/on`. -/
def _to_bool (v : Option String) : Bool :=
  match v with
  | none => false
  | some s => ["1", "true", "yes", "y", "on"].contains (pyLower (pyStrip s))

/-- The flag check `sheets_enabled`. -/
def sheets_enabled (cfg : Config) : Bool :=
  _to_bool (_secret_get cfg "USE_GOOGLE_SHEETS")

/-- The resolver `_service_account_info`: the structured `gcp_service_account` secret
when Streamlit is present and has it; otherwise the
`GOOGLE_SERVICE_ACCOUNT_JSON` string when truthy, run through
`json.loads` with a parse failure downgraded to `none`. -/
def _service_account_info (cfg : Config) : Option String :=
  if cfg.hasStreamlit ∧ cfg.gcpServiceAccount.isSome then cfg.gcpServiceAccount
  else
    match _secret_get cfg "GOOGLE_SERVICE_ACCOUNT_JSON" with
    | none => none
    | some raw => if raw = "" then none else cfg.parseJson raw

/-- Result of `_open_spreadsheet`: the `None` sentinel, a propagated
authentication/network error, or an open handle on the document whose id
is the stripped configured id. -/
inductive OpenResult
  | unavailable
  | authError
  | handle (sid : String) (info : String)
  deriving DecidableEq

/-- The factory `_open_spreadsheet`: `None` when disabled, the client library is
missing, no (truthy) spreadsheet id is configured, or no (truthy)
credential material resolves; otherwise it authenticates, which raises
on failure. -/
def _open_spreadsheet (cfg : Config) : OpenResult :=
  if !(sheets_enabled cfg) || !cfg.libAvailable then .unavailable
  else
    match _secret_get cfg "GOOGLE_SHEETS_SPREADSHEET_ID" with
    | none => .unavailable
    | some sid =>
      if sid = "" then .unavailable
      else
        match _service_account_info cfg with
        | none => .unavailable
        | some info =>
          if info = "" then .unavailable
          else if cfg.authOk then .handle (pyStrip sid) info else .authError

/-- One remote network call: the auth handshake of `_open_spreadsheet`,
a read (metadata/values fetch), or a write (create/clear/update/append). -/
inductive RemoteEff
  | authCall
  | readCall
  | writeCall
  deriving DecidableEq

/-- The network calls `_ensure_worksheet` makes against a spreadsheet in
which the target worksheet is `wsOpt` (`none` = absent): the
`spreadsheet.worksheet(title)` existence fetch, then `add_worksheet` when
absent, then — when `headers` is truthy — the `row_values(1)` fetch and,
when that first row is empty, the `update("A1", [headers])` write. -/
def ensure_worksheet_effects (wsOpt : Option Ws) (headers : Option (List String)) :
    List RemoteEff :=
  [RemoteEff.readCall]
    ++ (match wsOpt with | some _ => [] | none => [RemoteEff.writeCall])
    ++ (match headers with
        | none => []
        | some hs =>
          if hs.isEmpty then []
          else
            RemoteEff.readCall ::
              (if rowIsBlank ((wsOpt.getD []).headD []) then [RemoteEff.writeCall] else []))

/-- Number of remote reads in an effect list. -/
def countReads (effs : List RemoteEff) : Nat := effs.count RemoteEff.readCall

/-- Number of remote writes in an effect list. -/
def countWrites (effs : List RemoteEff) : Nat := effs.count RemoteEff.writeCall

/-- The DataFrame `read_sheet_df` builds from `ws.get_all_values()`. -/
def read_sheet_df_values (headers : Option (List String)) (values : Ws) : DF :=
  if values.isEmpty then ⟨headers.getD [], []⟩
  else
    let raw_headers := values.headD []
    let rows := values.tail
    if rows.isEmpty then
      ⟨(match headers with
        | some h => if h.isEmpty then raw_headers else h
        | none => raw_headers), []⟩
    else normalize_df ⟨raw_headers, rows⟩ headers

/-- The operation `read_sheet_df` as a whole program run: configuration in, worksheet
state (`none` = worksheet absent) in and out, plus the remote calls
performed.  `Except.error` models a propagated auth exception. -/
def read_sheet_df_run (cfg : Config) (wsOpt : Option Ws)
    (headers : Option (List String)) :
    Except Unit (DF × Option Ws × List RemoteEff) :=
  match _open_spreadsheet cfg with
  | .unavailable => .ok (⟨headers.getD [], []⟩, wsOpt, [])
  | .authError => .error ()
  | .handle _ _ =>
    let ws := ensureWorksheetWs headers (wsOpt.getD [])
    .ok (read_sheet_df_values headers ws, some ws,
      RemoteEff.authCall :: ensure_worksheet_effects wsOpt headers ++ [RemoteEff.readCall])

/-- The operation `write_sheet_df` as a whole program run. -/
def write_sheet_df_run (cfg : Config) (wsOpt : Option Ws) (df : DF)
    (headers0 : Option (List String)) :
    Except Unit (Bool × Option Ws × List RemoteEff) :=
  match _open_spreadsheet cfg with
  | .unavailable => .ok (false, wsOpt, [])
  | .authError => .error ()
  | .handle _ _ =>
    let headers := match headers0 with
      | some h => h
      | none => (normalize_df df headers0).cols
    let o := write_sheet_df df headers0 (wsOpt.getD [])
    .ok (o.ok, some o.ws,
      RemoteEff.authCall :: ensure_worksheet_effects wsOpt (some headers)
        ++ [RemoteEff.writeCall, RemoteEff.writeCall]
        ++ o.batches.map (fun _ => RemoteEff.writeCall))

/-- The operation `upsert_sheet_row` as a whole program run. -/
def upsert_sheet_row_run (cfg : Config) (wsOpt : Option Ws) (row : Record)
    (key_col : String) (headers0 : Option (List String)) :
    Except Unit (Bool × Option Ws × List RemoteEff) :=
  match _open_spreadsheet cfg with
  | .unavailable => .ok (false, wsOpt, [])
  | .authError => .error ()
  | .handle _ _ =>
    let headers := match headers0 with
      | some h => h
      | none => row.map Prod.fst
    let r := upsert_sheet_row row key_col headers0 (wsOpt.getD [])
    let bodyEffs : List RemoteEff :=
      if pyStrip (recGet row key_col) = "" then []
      else match headers.indexOf? key_col with
        | none => []
        | some _ => [RemoteEff.readCall, RemoteEff.writeCall]
    .ok (r.1, some r.2,
      RemoteEff.authCall :: ensure_worksheet_effects wsOpt (some headers) ++ bodyEffs)

/-- The operation `update_sheet_fields_by_id` as a whole program run (the empty-updates
check precedes even `_open_spreadsheet`). -/
def update_sheet_fields_by_id_run (cfg : Config) (wsOpt : Option Ws)
    (id_value : String) (updates : Updates) (key_col : String) :
    Except Unit (Bool × Option Ws × List RemoteEff) :=
  if updates.isEmpty then .ok (false, wsOpt, [])
  else
    match _open_spreadsheet cfg with
    | .unavailable => .ok (false, wsOpt, [])
    | .authError => .error ()
    | .handle _ _ =>
      let ws := wsOpt.getD []
      let headers := rowValues ws 0
      let r := update_sheet_fields_by_id id_value updates key_col ws
      let bodyEffs : List RemoteEff :=
        if headers.isEmpty then []
        else if ¬ headers.contains key_col then []
        else
          match findKeyRow (colValues ws (headers.indexOf key_col)) (pyStrip id_value) with
          | none => [RemoteEff.readCall]
          | some _ => [RemoteEff.readCall, RemoteEff.readCall, RemoteEff.writeCall]
      .ok (r.1, some r.2,
        RemoteEff.authCall :: ensure_worksheet_effects wsOpt none
          ++ [RemoteEff.readCall] ++ bodyEffs)

/-- A configuration with nothing set: enable flag absent everywhere. -/
def cfgOff : Config :=
  ⟨fun _ => none, false, fun _ => none, none, true, fun _ => none, true⟩

/-- An environment supplying all three configuration inputs. -/
def envFull : String → Option String := fun name =>
  if name = "USE_GOOGLE_SHEETS" then some "true"
  else if name = "GOOGLE_SHEETS_SPREADSHEET_ID" then some " SSID1 "
  else if name = "GOOGLE_SERVICE_ACCOUNT_JSON" then some "sa-json"
  else none

/-- A fully configured environment-only process: no Streamlit, client
library importable, credential JSON parses, authentication succeeds. -/
def cfgFull : Config :=
  ⟨envFull, false, fun _ => none, none, true,
    fun s => if s = "sa-json" then some "sa-info" else none, true⟩

/-- A process where the environment and the secret store both supply
service-account credential material: the environment carries
`GOOGLE_SERVICE_ACCOUNT_JSON` (which parses to `env-info`) while the
Streamlit secret store carries the structured `gcp_service_account`
entry `secret-info`. -/
def cfgBothCreds : Config :=
  ⟨envFull, true,
    fun name => if name = "USE_GOOGLE_SHEETS" then some "true" else none,
    some "secret-info", true,
    fun s => if s = "sa-json" then some "env-info" else none, true⟩

/-! ## Helper lemmas -/

theorem indexOf?_eq_some_indexOf {α : Type} [DecidableEq α] {a : α} {l : List α}
    (h : a ∈ l) : l.indexOf? a = some (l.indexOf a) := by
  induction l with
  | nil => cases h
  | cons x xs ih =>
    by_cases hx : x = a
    · subst hx
      simp [List.indexOf?_cons, List.indexOf_cons]
    · have hmem : a ∈ xs := by
        cases h with
        | head => exact absurd rfl hx
        | tail _ h' => exact h'
      simp [List.indexOf?_cons, List.indexOf_cons, hx, ih hmem]

theorem getD_drop_one {l : List Cell} {j : Nat} :
    (l.drop 1).getD j "" = l.getD (j + 1) "" := by
  cases l <;> simp [List.getD]

theorem scanKeyRows_eq_none_iff (vals : List Cell) (kv : String) (s : Nat) :
    scanKeyRows vals kv s = none ↔ ∀ v ∈ vals, pyStrip v ≠ kv := by
  induction vals generalizing s with
  | nil => simp [scanKeyRows]
  | cons v rest ih =>
    by_cases h : pyStrip v = kv
    · simp [scanKeyRows, h]
    · simp only [scanKeyRows, if_neg h, List.mem_cons]
      rw [ih (s + 1)]
      constructor
      · rintro hall w (rfl | hw)
        · exact h
        · exact hall w hw
      · intro hall w hw
        exact hall w (Or.inr hw)

theorem scanKeyRows_eq_some (vals : List Cell) (kv : String) (s i : Nat)
    (h : scanKeyRows vals kv s = some i) :
    s ≤ i ∧ i - s < vals.length ∧ pyStrip (vals.getD (i - s) "") = kv
      ∧ ∀ j < i - s, pyStrip (vals.getD j "") ≠ kv := by
  induction vals generalizing s with
  | nil => simp [scanKeyRows] at h
  | cons v rest ih =>
    by_cases hv : pyStrip v = kv
    · simp only [scanKeyRows, if_pos hv, Option.some.injEq] at h
      subst h
      refine ⟨Nat.le_refl _, by simp, ?_, ?_⟩
      · simpa using hv
      · intro j hj
        omega
    · simp only [scanKeyRows, if_neg hv] at h
      obtain ⟨h1, h2, h3, h4⟩ := ih (s + 1) h
      have hs : s + 1 ≤ i := h1
      have hieq : i - s = (i - (s + 1)) + 1 := by omega
      refine ⟨by omega, ?_, ?_, ?_⟩
      · simp only [List.length_cons]
        omega
      · rw [hieq]
        simpa using h3
      · intro j hj
        cases j with
        | zero => simpa using hv
        | succ j' =>
          have : j' < i - (s + 1) := by omega
          simpa using h4 j' this

theorem scanKeyRows_eq_some_of (vals : List Cell) (kv : String) (s m : Nat)
    (hm : m < vals.length) (hmatch : pyStrip (vals.getD m "") = kv)
    (hbefore : ∀ j < m, pyStrip (vals.getD j "") ≠ kv) :
    scanKeyRows vals kv s = some (s + m) := by
  induction vals generalizing s m with
  | nil => simp at hm
  | cons v rest ih =>
    cases m with
    | zero =>
      simp only [List.getD_cons_zero] at hmatch
      simp [scanKeyRows, hmatch]
    | succ m' =>
      have hv : pyStrip v ≠ kv := by simpa using hbefore 0 (Nat.succ_pos _)
      have hrec := ih (s + 1) m' (by simpa using hm) (by simpa using hmatch)
        (fun j hj => by simpa using hbefore (j + 1) (by omega))
      simp only [scanKeyRows, if_neg hv, hrec]
      congr 1
      omega

theorem findKeyRow_none_iff (existing : List Cell) (kv : String) :
    findKeyRow existing kv = none ↔ ∀ v ∈ existing.drop 1, pyStrip v ≠ kv := by
  simp [findKeyRow, scanKeyRows_eq_none_iff]

theorem findKeyRow_some (existing : List Cell) (kv : String) (i : Nat)
    (h : findKeyRow existing kv = some i) :
    2 ≤ i ∧ i - 1 < existing.length ∧ pyStrip (existing.getD (i - 1) "") = kv
      ∧ ∀ j, 1 ≤ j → j < i - 1 → pyStrip (existing.getD j "") ≠ kv := by
  obtain ⟨h1, h2, h3, h4⟩ := scanKeyRows_eq_some _ kv 2 i h
  have hlen : existing.length ≥ 1 := by
    rcases existing with _ | ⟨x, xs⟩
    · simp [List.drop] at h2
    · simp
  have hdl : (existing.drop 1).length = existing.length - 1 := by simp
  refine ⟨h1, by omega, ?_, ?_⟩
  · have := h3
    rw [getD_drop_one] at this
    have heq : i - 2 + 1 = i - 1 := by omega
    rwa [heq] at this
  · intro j hj1 hj2
    have := h4 (j - 1) (by omega)
    rw [getD_drop_one] at this
    have heq : j - 1 + 1 = j := by omega
    rwa [heq] at this

theorem findKeyRow_some_of (existing : List Cell) (kv : String) (m : Nat)
    (hm1 : 1 ≤ m) (hm2 : m < existing.length)
    (hmatch : pyStrip (existing.getD m "") = kv)
    (hbefore : ∀ j, 1 ≤ j → j < m → pyStrip (existing.getD j "") ≠ kv) :
    findKeyRow existing kv = some (m + 1) := by
  have hd : (existing.drop 1).length = existing.length - 1 := by simp
  have := scanKeyRows_eq_some_of (existing.drop 1) kv 2 (m - 1)
    (by omega)
    (by
      rw [getD_drop_one]
      have heq : m - 1 + 1 = m := by omega
      rwa [heq])
    (fun j hj => by
      rw [getD_drop_one]
      exact hbefore (j + 1) (by omega) (by omega))
  rw [findKeyRow, this]
  congr 1
  omega

theorem setRow_eq_set {ws : Ws} {j : Nat} (h : j < ws.length) (v : Row) :
    setRow ws j v = ws.set j v := by
  simp [setRow, h]

theorem length_colValues (ws : Ws) (k : Nat) : (colValues ws k).length = ws.length := by
  simp [colValues]

theorem colValues_getD {ws : Ws} {j : Nat} (k : Nat) (h : j < ws.length) :
    (colValues ws k).getD j "" = cellAt (ws.getD j []) k := by
  have h' : j < (colValues ws k).length := by
    rw [length_colValues]
    exact h
  rw [List.getD_eq_getElem _ _ h', List.getD_eq_getElem _ _ h]
  simp [colValues]

theorem colValues_append_singleton (ws : Ws) (r : Row) (k : Nat) :
    colValues (ws ++ [r]) k = colValues ws k ++ [cellAt r k] := by
  simp [colValues]

theorem colValues_set (ws : Ws) (j : Nat) (v : Row) (k : Nat) :
    colValues (ws.set j v) k = (colValues ws k).set j (cellAt v k) := by
  simp [colValues, List.map_set]

theorem getD_map_indexOf {hs : List String} {f : String → String} {c : String}
    (h : c ∈ hs) : (hs.map f).getD (hs.indexOf c) "" = f c := by
  have hlt : hs.indexOf c < hs.length := List.indexOf_lt_length.mpr h
  have hlt' : hs.indexOf c < (hs.map f).length := by simpa using hlt
  rw [List.getD_eq_getElem _ _ hlt']
  simp only [List.getElem_map]
  rw [List.getElem_indexOf hlt]

/-- Unfolding of `upsert_sheet_row` on a worksheet the `_ensure_worksheet`
call leaves unchanged, with the key column present and the key non-blank. -/
theorem upsert_unfold (row : Record) (key_col : String) (hs : List String) (ws : Ws)
    (hens : ensureWorksheetWs (some hs) ws = ws)
    (hmem : key_col ∈ hs)
    (hkey : pyStrip (recGet row key_col) ≠ "") :
    upsert_sheet_row row key_col (some hs) ws =
      match findKeyRow (colValues ws (hs.indexOf key_col)) (pyStrip (recGet row key_col)) with
      | none => (true, ws ++ [hs.map (fun c => recGet row c)])
      | some i => (true, setRow ws (i - 1) (hs.map (fun c => recGet row c))) := by
  simp only [upsert_sheet_row, hens, if_neg hkey, indexOf?_eq_some_indexOf hmem]

/-- The function `upsert_sheet_row` appends the projected record when no data row
strip-matches the key value. -/
theorem upsert_eq_append (row : Record) (key_col : String) (hs : List String) (ws : Ws)
    (hens : ensureWorksheetWs (some hs) ws = ws)
    (hmem : key_col ∈ hs)
    (hkey : pyStrip (recGet row key_col) ≠ "")
    (hfk : findKeyRow (colValues ws (hs.indexOf key_col))
      (pyStrip (recGet row key_col)) = none) :
    upsert_sheet_row row key_col (some hs) ws
      = (true, ws ++ [hs.map (fun c => recGet row c)]) := by
  rw [upsert_unfold row key_col hs ws hens hmem hkey, hfk]

/-- The function `upsert_sheet_row` replaces sheet row `i` with the projected record
when the scan finds its first strip-match there. -/
theorem upsert_eq_replace (row : Record) (key_col : String) (hs : List String) (ws : Ws)
    {i : Nat}
    (hens : ensureWorksheetWs (some hs) ws = ws)
    (hmem : key_col ∈ hs)
    (hkey : pyStrip (recGet row key_col) ≠ "")
    (hfk : findKeyRow (colValues ws (hs.indexOf key_col))
      (pyStrip (recGet row key_col)) = some i) :
    upsert_sheet_row row key_col (some hs) ws
      = (true, setRow ws (i - 1) (hs.map (fun c => recGet row c))) := by
  rw [upsert_unfold row key_col hs ws hens hmem hkey, hfk]

theorem getD_set_self {α : Type} {l : List α} {j : Nat} {d v : α} (h : j < l.length) :
    (l.set j v).getD j d = v := by
  have h' : j < (l.set j v).length := by simpa using h
  rw [List.getD_eq_getElem _ _ h', List.getElem_set_self]

theorem getD_set_ne {α : Type} {l : List α} {j j' : Nat} {d v : α} (hne : j' ≠ j) :
    (l.set j v).getD j' d = l.getD j' d := by
  by_cases hlt : j' < l.length
  · have h' : j' < (l.set j v).length := by simpa using hlt
    rw [List.getD_eq_getElem _ _ h', List.getD_eq_getElem _ _ hlt,
      List.getElem_set_ne (fun heq => hne heq.symm)]
  · rw [List.getD_eq_default _ _ (by simp only [List.length_set]; omega),
      List.getD_eq_default _ _ (by omega)]

theorem getD_mem_drop_one {l : List Cell} {j : Nat} (h1 : 1 ≤ j) (h2 : j < l.length) :
    l.getD j "" ∈ l.drop 1 := by
  have heq : (l.drop 1).getD (j - 1) "" = l.getD j "" := by
    rw [getD_drop_one]
    congr 1
    omega
  rw [← heq]
  have hlen : j - 1 < (l.drop 1).length := by
    simp only [List.length_drop]
    omega
  rw [List.getD_eq_getElem _ _ hlen]
  exact List.getElem_mem _

theorem ensure_ne_nil {hs : List String} {ws : Ws} (hhs : hs ≠ [])
    (hens : ensureWorksheetWs (some hs) ws = ws) : ws ≠ [] := by
  intro h
  subst h
  have h1 : hs.isEmpty = false := by simpa [List.isEmpty_iff] using hhs
  simp [ensureWorksheetWs, h1, rowIsBlank, setRow] at hens

theorem ensure_stable_append {hs : List String} {ws : Ws} (hhs : hs ≠ [])
    (hens : ensureWorksheetWs (some hs) ws = ws) (r : Row) :
    ensureWorksheetWs (some hs) (ws ++ [r]) = ws ++ [r] := by
  have hne := ensure_ne_nil hhs hens
  have h1 : hs.isEmpty = false := by simpa [List.isEmpty_iff] using hhs
  rcases ws with _ | ⟨h0, t⟩
  · exact absurd rfl hne
  by_cases hb : rowIsBlank h0
  · simp only [ensureWorksheetWs, h1, Bool.false_eq_true, if_false, List.headD_cons, hb,
      if_true, setRow, List.length_cons, Nat.succ_pos, if_pos, List.set_cons_zero] at hens
    have hhd : hs = h0 := (List.cons.injEq _ _ _ _ ▸ hens).1
    simp only [List.cons_append, ensureWorksheetWs, h1, Bool.false_eq_true, if_false,
      List.headD_cons, hb, if_true, setRow, List.length_cons, Nat.succ_pos, if_pos,
      List.set_cons_zero, hhd]
    split <;> rfl
  · simp only [List.cons_append, ensureWorksheetWs, h1, Bool.false_eq_true, if_false,
      List.headD_cons, hb, Bool.false_eq_true, if_false]

theorem ensure_stable_set {hs : List String} {ws : Ws} (hhs : hs ≠ [])
    (hens : ensureWorksheetWs (some hs) ws = ws) {j : Nat} (hj : 1 ≤ j) (r : Row) :
    ensureWorksheetWs (some hs) (ws.set j r) = ws.set j r := by
  have hne := ensure_ne_nil hhs hens
  have h1 : hs.isEmpty = false := by simpa [List.isEmpty_iff] using hhs
  rcases ws with _ | ⟨h0, t⟩
  · exact absurd rfl hne
  rcases j with _ | j'
  · omega
  simp only [List.set_cons_succ]
  by_cases hb : rowIsBlank h0
  · simp only [ensureWorksheetWs, h1, Bool.false_eq_true, if_false, List.headD_cons, hb,
      if_true, setRow, List.length_cons, Nat.succ_pos, if_pos, List.set_cons_zero] at hens
    have hhd : hs = h0 := (List.cons.injEq _ _ _ _ ▸ hens).1
    simp only [ensureWorksheetWs, h1, Bool.false_eq_true, if_false, List.headD_cons, hb,
      if_true, setRow, List.length_cons, Nat.succ_pos, if_pos, List.set_cons_zero, hhd]
    split <;> rfl
  · simp only [ensureWorksheetWs, h1, Bool.false_eq_true, if_false, List.headD_cons, hb,
      Bool.false_eq_true, if_false]

theorem dropWhile_self_idem {α : Type} (p : α → Bool) (l : List α) :
    (l.dropWhile p).dropWhile p = l.dropWhile p := by
  rw [List.dropWhile_eq_self_iff]
  intro hl
  have hne : l.dropWhile p ≠ [] := by
    intro h
    rw [h] at hl
    simp at hl
  have hh := List.head?_dropWhile_not p l
  rw [List.head?_eq_head hne] at hh
  simp only at hh
  rw [List.get_mk_zero]
  simp [hh]

theorem dropWhile_reverse_dropWhile_self {α : Type} (p : α → Bool) (u : List α)
    (hu : u.dropWhile p = u) :
    (u.reverse.dropWhile p).reverse.dropWhile p = (u.reverse.dropWhile p).reverse := by
  by_cases hne : u.reverse.dropWhile p = []
  · simp [hne]
  · rw [List.dropWhile_eq_self_iff]
    intro hl
    have hu_ne : u ≠ [] := by
      intro h
      subst h
      simp at hne
    have hh : ((u.reverse.dropWhile p).reverse).head? = u.head? := by
      rw [List.head?_reverse]
      rcases List.dropWhile_suffix (l := u.reverse) p with ⟨t, ht⟩
      calc (u.reverse.dropWhile p).getLast?
          = (t ++ u.reverse.dropWhile p).getLast? :=
            (List.getLast?_append_of_ne_nil t hne).symm
        _ = u.reverse.getLast? := by rw [ht]
        _ = u.head? := List.getLast?_reverse u
    have hph : p (u.head hu_ne) = false := by
      have h2 := List.head?_dropWhile_not p u
      rw [hu, List.head?_eq_head hu_ne] at h2
      simpa using h2
    have hrev_ne : (u.reverse.dropWhile p).reverse ≠ [] := by simpa using hne
    rw [List.get_mk_zero]
    have hhead : ((u.reverse.dropWhile p).reverse).head hrev_ne = u.head hu_ne := by
      have := hh
      rw [List.head?_eq_head hrev_ne, List.head?_eq_head hu_ne] at this
      exact Option.some.inj this
    rw [hhead, hph]
    simp

theorem stripList_idem {α : Type} (p : α → Bool) (l : List α) :
    (((((l.dropWhile p).reverse.dropWhile p).reverse.dropWhile p).reverse).dropWhile p).reverse
      = ((l.dropWhile p).reverse.dropWhile p).reverse := by
  have hu : (l.dropWhile p).dropWhile p = l.dropWhile p := dropWhile_self_idem p l
  rw [dropWhile_reverse_dropWhile_self p (l.dropWhile p) hu, List.reverse_reverse,
    dropWhile_self_idem p (l.dropWhile p).reverse]

/-- Python stripping is idempotent: `s.strip().strip() == s.strip()`. -/
theorem pyStrip_idem (s : String) : pyStrip (pyStrip s) = pyStrip s :=
  congrArg String.mk (stripList_idem Char.isWhitespace s.data)

theorem lookup_eq_none_of_not_mem {α β : Type} [BEq α] [LawfulBEq α]
    {l : List (α × β)} {a : α} (h : a ∉ l.map Prod.fst) : l.lookup a = none := by
  induction l with
  | nil => rfl
  | cons kv rest ih =>
    obtain ⟨k, b⟩ := kv
    simp only [List.map_cons, List.mem_cons] at h
    push_neg at h
    have hne : (a == k) = false := beq_eq_false_iff_ne.mpr h.1
    simp only [List.lookup, hne, ih h.2]

theorem applyUpdates_cons (headers : List String) (kv : String × Option String)
    (rest : Updates) (cur : Row) :
    applyUpdates headers (kv :: rest) cur
      = applyUpdates headers rest
          (if headers.contains kv.1 then cur.set (headers.indexOf kv.1) (updVal kv.2)
           else cur) := rfl

theorem applyUpdates_length (headers : List String) (updates : Updates) (cur : Row) :
    (applyUpdates headers updates cur).length = cur.length := by
  induction updates generalizing cur with
  | nil => rfl
  | cons kv rest ih =>
    rw [applyUpdates_cons, ih]
    split <;> simp [List.length_set]

/-- What `applyUpdates` does at header position `jj` (update keys are
distinct, as they come from a Python dict, and header names are unique):
the cell becomes the update value for that column name if one is present,
and is untouched otherwise. -/
theorem applyUpdates_getD {headers : List String} {updates : Updates} {cur : Row}
    (hndU : (updates.map Prod.fst).Nodup)
    (hndH : headers.Nodup)
    {jj : Nat} (hjj : jj < headers.length) (hcur : headers.length ≤ cur.length) :
    (applyUpdates headers updates cur).getD jj ""
      = match updates.lookup (headers.getD jj "") with
        | some v => updVal v
        | none => cur.getD jj "" := by
  induction updates generalizing cur with
  | nil => rfl
  | cons kv rest ih =>
    obtain ⟨k, v⟩ := kv
    simp only [List.map_cons, List.nodup_cons] at hndU
    obtain ⟨hknotin, hndrest⟩ := hndU
    rw [applyUpdates_cons]
    by_cases hk : k = headers.getD jj ""
    · have hkmem : k ∈ headers := by
        rw [hk, List.getD_eq_getElem _ _ hjj]
        exact List.getElem_mem _
      have hkidx : headers.indexOf k = jj := by
        rw [hk, List.getD_eq_getElem _ _ hjj]
        exact List.indexOf_getElem hndH jj hjj
      have hlook : ((k, v) :: rest).lookup (headers.getD jj "") = some v := by
        have hbe : (headers.getD jj "" == k) = true := beq_iff_eq.mpr hk.symm
        simp only [List.lookup, hbe]
      rw [if_pos (List.elem_eq_true_of_mem hkmem), hlook, hkidx]
      have hrest_none : rest.lookup (headers.getD jj "") = none := by
        apply lookup_eq_none_of_not_mem
        rw [← hk]
        exact hknotin
      rw [ih hndrest (by simpa [List.length_set] using hcur), hrest_none]
      exact getD_set_self (by omega)
    · have hbe : (headers.getD jj "" == k) = false :=
        beq_eq_false_iff_ne.mpr (fun he => hk he.symm)
      have hlook : ((k, v) :: rest).lookup (headers.getD jj "")
          = rest.lookup (headers.getD jj "") := by
        simp only [List.lookup, hbe]
      rw [hlook]
      by_cases hcont : k ∈ headers
      · have hidxne : jj ≠ headers.indexOf k := by
          intro he
          apply hk
          subst he
          rw [List.getD_eq_getElem _ _ hjj]
          exact (List.getElem_indexOf (List.indexOf_lt_length.mpr hcont)).symm
        rw [if_pos (List.elem_eq_true_of_mem hcont)]
        rw [ih hndrest (by simpa [List.length_set] using hcur)]
        rcases hr : rest.lookup (headers.getD jj "") with _ | w
        · exact getD_set_ne hidxne
        · rfl
      · rw [if_neg (by simpa using hcont)]
        exact ih hndrest hcur

theorem getD_replicate_empty (r m : Nat) :
    (List.replicate r ("" : String)).getD m "" = "" := by
  by_cases h : m < r
  · rw [List.getD_eq_getElem _ _ (by simpa using h)]
    simp
  · rw [List.getD_eq_default _ _ (by simpa using Nat.le_of_not_lt h)]

theorem padRow_getD (cur0 : Row) (L jj : Nat) :
    (if cur0.length < L then cur0 ++ List.replicate (L - cur0.length) "" else cur0).getD jj ""
      = cur0.getD jj "" := by
  split
  · next h =>
    by_cases hj : jj < cur0.length
    · rw [List.getD_append _ _ _ _ hj]
    · rw [List.getD_eq_default cur0 _ (by omega)]
      by_cases hj2 : jj < cur0.length + (L - cur0.length)
      · rw [List.getD_append_right _ _ _ _ (by omega)]
        exact getD_replicate_empty _ _
      · rw [List.getD_eq_default _ _ (by
          simp only [List.length_append, List.length_replicate]
          omega)]
  · rfl

theorem padRow_length (cur0 : Row) (L : Nat) :
    L ≤ (if cur0.length < L then cur0 ++ List.replicate (L - cur0.length) ""
         else cur0).length := by
  split
  · next h =>
    simp only [List.length_append, List.length_replicate]
    omega
  · next h => omega

theorem applyUpdates_getD_ge {headers : List String} {updates : Updates} {cur : Row}
    {jj : Nat} (h : headers.length ≤ jj) :
    (applyUpdates headers updates cur).getD jj "" = cur.getD jj "" := by
  induction updates generalizing cur with
  | nil => rfl
  | cons kv rest ih =>
    rw [applyUpdates_cons, ih]
    split
    · next hc =>
      apply getD_set_ne
      have : headers.indexOf kv.1 < headers.length :=
        List.indexOf_lt_length.mpr (List.elem_iff.mp hc)
      omega
    · rfl

/-- Unfolding of `update_sheet_fields_by_id` once the guards pass: the
result is decided by the key-column scan, and on a hit row `target` is
rebuilt as the padded stored row with the updates applied. -/
theorem update_fields_unfold (id_value : String) (updates : Updates)
    (key_col : String) (ws : Ws)
    (hupd : updates ≠ [])
    (hhead : rowValues ws 0 ≠ [])
    (hmem : key_col ∈ rowValues ws 0) :
    update_sheet_fields_by_id id_value updates key_col ws
      = match findKeyRow (colValues ws ((rowValues ws 0).indexOf key_col))
          (pyStrip id_value) with
        | none => (false, ws)
        | some target =>
          (true, setRow ws (target - 1)
            (applyUpdates (rowValues ws 0) updates
              (if (rowValues ws (target - 1)).length < (rowValues ws 0).length then
                rowValues ws (target - 1)
                  ++ List.replicate
                      ((rowValues ws 0).length - (rowValues ws (target - 1)).length) ""
              else rowValues ws (target - 1)))) := by
  have h1 : updates.isEmpty = false := by simpa [List.isEmpty_iff] using hupd
  have h2 : (rowValues ws 0).isEmpty = false := by simpa [List.isEmpty_iff] using hhead
  have h3 : (rowValues ws 0).contains key_col = true := List.elem_eq_true_of_mem hmem
  simp only [update_sheet_fields_by_id, h1, h2, h3, Bool.false_eq_true, if_false,
    not_true, ite_false, ite_true]

/-- The function `update_sheet_fields_by_id` misses: no data row strip-matches the id. -/
theorem update_fields_eq_miss (id_value : String) (updates : Updates)
    (key_col : String) (ws : Ws)
    (hupd : updates ≠ [])
    (hhead : rowValues ws 0 ≠ [])
    (hmem : key_col ∈ rowValues ws 0)
    (hfk : findKeyRow (colValues ws ((rowValues ws 0).indexOf key_col))
      (pyStrip id_value) = none) :
    update_sheet_fields_by_id id_value updates key_col ws = (false, ws) := by
  rw [update_fields_unfold id_value updates key_col ws hupd hhead hmem, hfk]

/-- The function `update_sheet_fields_by_id` hits sheet row `i`: the padded stored row
with the updates applied is written back there. -/
theorem update_fields_eq_hit (id_value : String) (updates : Updates)
    (key_col : String) (ws : Ws) {i : Nat}
    (hupd : updates ≠ [])
    (hhead : rowValues ws 0 ≠ [])
    (hmem : key_col ∈ rowValues ws 0)
    (hfk : findKeyRow (colValues ws ((rowValues ws 0).indexOf key_col))
      (pyStrip id_value) = some i) :
    update_sheet_fields_by_id id_value updates key_col ws
      = (true, setRow ws (i - 1)
          (applyUpdates (rowValues ws 0) updates
            (if (rowValues ws (i - 1)).length < (rowValues ws 0).length then
              rowValues ws (i - 1)
                ++ List.replicate
                    ((rowValues ws 0).length - (rowValues ws (i - 1)).length) ""
            else rowValues ws (i - 1)))) := by
  rw [update_fields_unfold id_value updates key_col ws hupd hhead hmem, hfk]

theorem update_fields_empty_updates (id_value : String) (key_col : String) (ws : Ws) :
    update_sheet_fields_by_id id_value [] key_col ws = (false, ws) := rfl

theorem update_fields_no_header (id_value : String) (updates : Updates)
    (key_col : String) (ws : Ws) (h : rowValues ws 0 = []) :
    update_sheet_fields_by_id id_value updates key_col ws = (false, ws) := by
  by_cases h1 : updates.isEmpty
  · simp [update_sheet_fields_by_id, h1]
  · simp [update_sheet_fields_by_id, h1, h]

theorem update_fields_key_absent (id_value : String) (updates : Updates)
    (key_col : String) (ws : Ws) (h : key_col ∉ rowValues ws 0) :
    update_sheet_fields_by_id id_value updates key_col ws = (false, ws) := by
  by_cases h1 : updates.isEmpty
  · simp [update_sheet_fields_by_id, h1]
  · by_cases h2 : (rowValues ws 0).isEmpty
    · simp [update_sheet_fields_by_id, h1, h2]
    · have h3 : (rowValues ws 0).contains key_col = false :=
        Bool.eq_false_iff.mpr (fun hc => h (List.elem_iff.mp hc))
      simp only [update_sheet_fields_by_id, h1, h2, h3, Bool.false_eq_true, if_false,
        not_false_eq_true, ite_true, ite_false]

/-- A failed scan always leaves `update_sheet_fields_by_id` at
`(false, ws)`, whichever guard fires first. -/
theorem update_fields_miss_false (id_value : String) (updates : Updates)
    (key_col : String) (ws : Ws)
    (hfk : findKeyRow (colValues ws ((rowValues ws 0).indexOf key_col))
      (pyStrip id_value) = none) :
    update_sheet_fields_by_id id_value updates key_col ws = (false, ws) := by
  rcases hupd : updates with _ | _
  · exact update_fields_empty_updates id_value key_col ws
  · rw [← hupd]
    have hupd' : updates ≠ [] := by rw [hupd]; exact List.cons_ne_nil _ _
    by_cases hh : rowValues ws 0 = []
    · exact update_fields_no_header id_value updates key_col ws hh
    · by_cases hk : key_col ∈ rowValues ws 0
      · rw [update_fields_unfold id_value updates key_col ws hupd' hh hk, hfk]
      · exact update_fields_key_absent id_value updates key_col ws hk

theorem update_fields_run_unavailable (cfg : Config) (wsOpt : Option Ws)
    (id_value : String) (updates : Updates) (key_col : String)
    (hopen : _open_spreadsheet cfg = OpenResult.unavailable) :
    update_sheet_fields_by_id_run cfg wsOpt id_value updates key_col
      = Except.ok (false, wsOpt, []) := by
  by_cases h1 : updates.isEmpty
  · simp [update_sheet_fields_by_id_run, h1]
  · simp [update_sheet_fields_by_id_run, h1, hopen]

theorem chunkRowsAux_flatten (chunk : Nat) (_hc : 1 ≤ chunk) :
    ∀ (fuel : Nat) (rows : List Row), rows.length ≤ fuel →
      (chunkRowsAux chunk fuel rows).flatten = rows := by
  intro fuel
  induction fuel with
  | zero =>
    intro rows hf
    have : rows = [] := List.eq_nil_of_length_eq_zero (Nat.le_zero.mp hf)
    subst this
    rfl
  | succ f ih =>
    intro rows hf
    rcases rows with _ | ⟨x, rest⟩
    · rfl
    · simp only [chunkRowsAux, List.flatten_cons]
      rw [ih (rest.drop (chunk - 1)) (by simp only [List.length_drop]; simp at hf; omega)]
      simp [List.take_append_drop]

theorem chunkRowsAux_batch_le (chunk : Nat) (_hc : 1 ≤ chunk) :
    ∀ (fuel : Nat) (rows : List Row) (b : List Row),
      b ∈ chunkRowsAux chunk fuel rows → b.length ≤ chunk := by
  intro fuel
  induction fuel with
  | zero =>
    intro rows b hb
    rcases rows with _ | _ <;> simp [chunkRowsAux] at hb
  | succ f ih =>
    intro rows b hb
    rcases rows with _ | ⟨x, rest⟩
    · simp [chunkRowsAux] at hb
    · simp only [chunkRowsAux, List.mem_cons] at hb
      rcases hb with rfl | hb
      · simp only [List.length_cons, List.length_take]
        omega
      · exact ih _ _ hb

theorem foldl_append_eq_flatten (bs : List (List Row)) (init : Ws) :
    bs.foldl (fun w b => w ++ b) init = init ++ bs.flatten := by
  induction bs generalizing init with
  | nil => simp
  | cons b rest ih =>
    simp only [List.foldl_cons, List.flatten_cons, ih, List.append_assoc]

/-! ## Claims -/

/-- C1: for every available worksheet (whose header row `_ensure_worksheet`
leaves in place), record, key column present in the effective header list
and non-blank key value, `upsert_sheet_row` scans the key column from the
second row downward for the first value whose stripped string equals the
stripped key value; if no row matches it appends the projection of the
record onto the header list (missing fields `""`), and if some row matches
it replaces that entire first-matching row with the same projected values,
leaving every other row unchanged even when the key value recurs below. -/
theorem upsert_scan_append_full_replace
    (row : Record) (key_col : String) (hs : List String) (ws : Ws)
    (hens : ensureWorksheetWs (some hs) ws = ws)
    (hmem : key_col ∈ hs)
    (hkey : pyStrip (recGet row key_col) ≠ "") :
    (upsert_sheet_row row key_col (some hs) ws).1 = true
    ∧ (findKeyRow (colValues ws (hs.indexOf key_col)) (pyStrip (recGet row key_col)) = none →
        (∀ v ∈ (colValues ws (hs.indexOf key_col)).drop 1,
            pyStrip v ≠ pyStrip (recGet row key_col))
        ∧ (upsert_sheet_row row key_col (some hs) ws).2
            = ws ++ [hs.map (fun c => recGet row c)])
    ∧ (∀ i, findKeyRow (colValues ws (hs.indexOf key_col)) (pyStrip (recGet row key_col))
          = some i →
        2 ≤ i ∧ i - 1 < ws.length
        ∧ pyStrip (cellAt (ws.getD (i - 1) []) (hs.indexOf key_col))
            = pyStrip (recGet row key_col)
        ∧ (∀ j, 1 ≤ j → j < i - 1 →
            pyStrip (cellAt (ws.getD j []) (hs.indexOf key_col))
              ≠ pyStrip (recGet row key_col))
        ∧ (upsert_sheet_row row key_col (some hs) ws).2
            = ws.set (i - 1) (hs.map (fun c => recGet row c))
        ∧ (upsert_sheet_row row key_col (some hs) ws).2.getD (i - 1) []
            = hs.map (fun c => recGet row c)
        ∧ ∀ j, j ≠ i - 1 →
            (upsert_sheet_row row key_col (some hs) ws).2.getD j [] = ws.getD j []) := by
  have hu := upsert_unfold row key_col hs ws hens hmem hkey
  refine ⟨?_, ?_, ?_⟩
  · rcases hfk : findKeyRow (colValues ws (hs.indexOf key_col))
        (pyStrip (recGet row key_col)) with _ | i
    · rw [hu, hfk]
    · rw [hu, hfk]
  · intro hfk
    refine ⟨(findKeyRow_none_iff _ _).mp hfk, ?_⟩
    rw [hu, hfk]
  · intro i hfk
    obtain ⟨h2i, hlt, hmatch, hfirst⟩ := findKeyRow_some _ _ _ hfk
    rw [length_colValues] at hlt
    have hws : (upsert_sheet_row row key_col (some hs) ws).2
        = ws.set (i - 1) (hs.map (fun c => recGet row c)) := by
      rw [hu, hfk]
      exact setRow_eq_set hlt _
    refine ⟨h2i, hlt, ?_, ?_, hws, ?_, ?_⟩
    · rwa [colValues_getD _ hlt] at hmatch
    · intro j hj1 hj2
      have hjlt : j < ws.length := by omega
      have := hfirst j hj1 hj2
      rwa [colValues_getD _ hjlt] at this
    · rw [hws]
      exact getD_set_self hlt
    · intro j hj
      rw [hws]
      exact getD_set_ne hj

/-- C2: upsert is idempotent: on a worksheet in which the key value occurs
on at most one data row, two successive calls with the same record, key
column and headers both return `true` and leave exactly one data row whose
stripped key-column cell matches the stripped key value, that row being
the projection of the record onto the header list as computed by the
second call. -/
theorem upsert_idempotent
    (row : Record) (key_col : String) (hs : List String) (ws : Ws)
    (hens : ensureWorksheetWs (some hs) ws = ws)
    (hmem : key_col ∈ hs)
    (hkey : pyStrip (recGet row key_col) ≠ "")
    (huniq : ∀ j ∈ List.range ws.length, ∀ j' ∈ List.range ws.length, 1 ≤ j → 1 ≤ j' →
        pyStrip (cellAt (ws.getD j []) (hs.indexOf key_col)) = pyStrip (recGet row key_col) →
        pyStrip (cellAt (ws.getD j' []) (hs.indexOf key_col)) = pyStrip (recGet row key_col) →
        j = j') :
    ∃ ws1 ws2,
      upsert_sheet_row row key_col (some hs) ws = (true, ws1)
      ∧ upsert_sheet_row row key_col (some hs) ws1 = (true, ws2)
      ∧ ∃ j, 1 ≤ j ∧ j < ws2.length
          ∧ ws2.getD j [] = hs.map (fun c => recGet row c)
          ∧ pyStrip (cellAt (ws2.getD j []) (hs.indexOf key_col))
              = pyStrip (recGet row key_col)
          ∧ ∀ j', 1 ≤ j' → j' < ws2.length →
              pyStrip (cellAt (ws2.getD j' []) (hs.indexOf key_col))
                = pyStrip (recGet row key_col)
              → j' = j := by
  have hhs : hs ≠ [] := List.ne_nil_of_mem hmem
  have hwsne : ws ≠ [] := ensure_ne_nil hhs hens
  have hwslen : 1 ≤ ws.length := by
    rcases ws with _ | _
    · exact absurd rfl hwsne
    · simp
  have houtcell : cellAt (hs.map (fun c => recGet row c)) (hs.indexOf key_col)
      = recGet row key_col := getD_map_indexOf hmem
  have houtkv : pyStrip (cellAt (hs.map (fun c => recGet row c)) (hs.indexOf key_col))
      = pyStrip (recGet row key_col) := by rw [houtcell]
  rcases hfk : findKeyRow (colValues ws (hs.indexOf key_col)) (pyStrip (recGet row key_col))
    with _ | i
  · -- no existing match: first call appends, second call replaces the appended row in place
    have hnone := (findKeyRow_none_iff _ _).mp hfk
    have hws1 : upsert_sheet_row row key_col (some hs) ws
        = (true, ws ++ [hs.map (fun c => recGet row c)]) :=
      upsert_eq_append row key_col hs ws hens hmem hkey hfk
    have hens1 := ensure_stable_append hhs hens (hs.map (fun c => recGet row c))
    have hlen1 : (colValues ws (hs.indexOf key_col)).length = ws.length :=
      length_colValues ws _
    have hfk2 : findKeyRow (colValues (ws ++ [hs.map (fun c => recGet row c)])
        (hs.indexOf key_col)) (pyStrip (recGet row key_col)) = some (ws.length + 1) := by
      rw [colValues_append_singleton]
      apply findKeyRow_some_of
      · exact hwslen
      · simp [hlen1]
      · rw [List.getD_append_right _ _ _ _ (by omega)]
        rw [hlen1, Nat.sub_self]
        simpa using houtkv
      · intro jj hj1 hj2
        rw [List.getD_append _ _ _ _ (by omega)]
        exact hnone _ (getD_mem_drop_one hj1 (by omega))
    have hsetlt : ws.length < (ws ++ [hs.map (fun c => recGet row c)]).length := by simp
    have hws2 := upsert_eq_replace row key_col hs
      (ws ++ [hs.map (fun c => recGet row c)]) hens1 hmem hkey hfk2
    rw [Nat.add_sub_cancel, setRow_eq_set hsetlt] at hws2
    refine ⟨_, _, hws1, hws2, ws.length, hwslen, ?_, ?_, ?_, ?_⟩
    · simp
    · exact getD_set_self hsetlt
    · rw [getD_set_self hsetlt]
      exact houtkv
    · intro j' hj1 hj2 hmatch
      by_contra hne
      have hj'lt : j' < ws.length := by
        simp only [List.length_set, List.length_append, List.length_singleton] at hj2
        omega
      rw [getD_set_ne hne, List.getD_append _ _ _ _ hj'lt] at hmatch
      rw [← colValues_getD _ hj'lt] at hmatch
      exact hnone _ (getD_mem_drop_one hj1 (by omega)) hmatch
  · -- an existing match at row i: both calls replace row i with the same projection
    obtain ⟨h2i, hltc, hmatchc, hfirstc⟩ := findKeyRow_some _ _ _ hfk
    have hlt : i - 1 < ws.length := by rwa [length_colValues] at hltc
    have hi1 : 1 ≤ i - 1 := by omega
    have hmatch0 : pyStrip (cellAt (ws.getD (i - 1) []) (hs.indexOf key_col))
        = pyStrip (recGet row key_col) := by
      rwa [colValues_getD _ hlt] at hmatchc
    have hws1 := upsert_eq_replace row key_col hs ws hens hmem hkey hfk
    rw [setRow_eq_set hlt] at hws1
    have hens1 := ensure_stable_set hhs hens hi1 (hs.map (fun c => recGet row c))
    have hlensetc : i - 1 < ((colValues ws (hs.indexOf key_col)).set (i - 1)
        (cellAt (hs.map (fun c => recGet row c)) (hs.indexOf key_col))).length := by
      simp only [List.length_set, length_colValues]
      omega
    have hfk2 : findKeyRow (colValues (ws.set (i - 1) (hs.map (fun c => recGet row c)))
        (hs.indexOf key_col)) (pyStrip (recGet row key_col)) = some i := by
      rw [colValues_set]
      have hr := findKeyRow_some_of _ (pyStrip (recGet row key_col)) (i - 1) hi1 hlensetc
        (by
          rw [getD_set_self (by simp only [length_colValues]; omega)]
          exact houtkv)
        (fun j hj1 hj2 => by
          rw [getD_set_ne (by omega)]
          exact hfirstc j hj1 hj2)
      rw [hr]
      congr 1
      omega
    have hsetlt1 : i - 1 < (ws.set (i - 1) (hs.map (fun c => recGet row c))).length := by
      simp only [List.length_set]
      omega
    have hws2 := upsert_eq_replace row key_col hs
      (ws.set (i - 1) (hs.map (fun c => recGet row c))) hens1 hmem hkey hfk2
    rw [setRow_eq_set hsetlt1] at hws2
    refine ⟨_, _, hws1, hws2, i - 1, hi1, ?_, ?_, ?_, ?_⟩
    · simp only [List.length_set]
      omega
    · exact getD_set_self hsetlt1
    · rw [getD_set_self hsetlt1]
      exact houtkv
    · intro j' hj1 hj2 hmatch
      by_contra hne
      have hj'lt : j' < ws.length := by
        simp only [List.length_set] at hj2
        omega
      rw [getD_set_ne hne, getD_set_ne hne] at hmatch
      exact hne (huniq j' (List.mem_range.mpr hj'lt) (i - 1) (List.mem_range.mpr hlt)
        hj1 hi1 hmatch hmatch0)

/-- C2 witness: two successive upserts of the same record on a concrete
two-row worksheet leave exactly one matching row. -/
theorem upsert_idempotent_witness :
    ∃ ws1 ws2,
      upsert_sheet_row [("ID_RESERVA", "A1"), ("NAME", "Jose")] "ID_RESERVA"
          (some ["ID_RESERVA", "NAME"])
          [["ID_RESERVA", "NAME"], ["A1", "Jo"], ["A2", "Ana"]] = (true, ws1)
      ∧ upsert_sheet_row [("ID_RESERVA", "A1"), ("NAME", "Jose")] "ID_RESERVA"
          (some ["ID_RESERVA", "NAME"]) ws1 = (true, ws2)
      ∧ ∃ j, 1 ≤ j ∧ j < ws2.length
          ∧ ws2.getD j [] = (["ID_RESERVA", "NAME"].map
              (fun c => recGet [("ID_RESERVA", "A1"), ("NAME", "Jose")] c))
          ∧ pyStrip (cellAt (ws2.getD j []) (["ID_RESERVA", "NAME"].indexOf "ID_RESERVA"))
              = pyStrip (recGet [("ID_RESERVA", "A1"), ("NAME", "Jose")] "ID_RESERVA")
          ∧ ∀ j', 1 ≤ j' → j' < ws2.length →
              pyStrip (cellAt (ws2.getD j' [])
                (["ID_RESERVA", "NAME"].indexOf "ID_RESERVA"))
                = pyStrip (recGet [("ID_RESERVA", "A1"), ("NAME", "Jose")] "ID_RESERVA")
              → j' = j :=
  upsert_idempotent [("ID_RESERVA", "A1"), ("NAME", "Jose")] "ID_RESERVA"
    ["ID_RESERVA", "NAME"] [["ID_RESERVA", "NAME"], ["A1", "Jo"], ["A2", "Ana"]]
    (by decide) (by decide) (by decide)
    (by decide)

/-- C1 witness: a concrete run exercising both the append branch and the
replace branch of `upsert_scan_append_full_replace`. -/
theorem upsert_scan_append_full_replace_witness :
    (upsert_sheet_row [("ID_RESERVA", "A1"), ("NAME", "Jose")] "ID_RESERVA"
        (some ["ID_RESERVA", "NAME"])
        [["ID_RESERVA", "NAME"], ["A1", "Jo"], ["A2", "Ana"]]).2
      = [["ID_RESERVA", "NAME"], ["A1", "Jo"], ["A2", "Ana"]].set 1 ["A1", "Jose"] := by
  have h := (upsert_scan_append_full_replace
    [("ID_RESERVA", "A1"), ("NAME", "Jose")] "ID_RESERVA" ["ID_RESERVA", "NAME"]
    [["ID_RESERVA", "NAME"], ["A1", "Jo"], ["A2", "Ana"]]
    (by decide) (by decide) (by decide)).2.2 2 (by decide)
  exact h.2.2.2.2.1

/-- C10: upsert compares keys with whitespace stripped but writes the
record's values unstripped: a record whose key value carries surrounding
whitespace is deduplicated against existing rows by stripped equality, the
stored key cell keeps the whitespace, and a later upsert whose key is the
stripped value still locates and replaces that same row. -/
theorem upsert_strip_compare_store_raw
    (row row2 : Record) (key_col : String) (hs : List String) (ws : Ws)
    (hens : ensureWorksheetWs (some hs) ws = ws)
    (hmem : key_col ∈ hs)
    (hkey : pyStrip (recGet row key_col) ≠ "")
    (hwsp : recGet row key_col ≠ pyStrip (recGet row key_col))
    (hnomatch : findKeyRow (colValues ws (hs.indexOf key_col))
      (pyStrip (recGet row key_col)) = none)
    (hrow2 : recGet row2 key_col = pyStrip (recGet row key_col)) :
    upsert_sheet_row row key_col (some hs) ws
      = (true, ws ++ [hs.map (fun c => recGet row c)])
    ∧ cellAt (hs.map (fun c => recGet row c)) (hs.indexOf key_col) = recGet row key_col
    ∧ cellAt (hs.map (fun c => recGet row c)) (hs.indexOf key_col)
        ≠ pyStrip (recGet row key_col)
    ∧ upsert_sheet_row row2 key_col (some hs) (ws ++ [hs.map (fun c => recGet row c)])
        = (true, (ws ++ [hs.map (fun c => recGet row c)]).set ws.length
            (hs.map (fun c => recGet row2 c))) := by
  have hhs : hs ≠ [] := List.ne_nil_of_mem hmem
  have hwsne : ws ≠ [] := ensure_ne_nil hhs hens
  have hwslen : 1 ≤ ws.length := by
    rcases ws with _ | _
    · exact absurd rfl hwsne
    · simp
  have houtcell : cellAt (hs.map (fun c => recGet row c)) (hs.indexOf key_col)
      = recGet row key_col := getD_map_indexOf hmem
  have h1 : upsert_sheet_row row key_col (some hs) ws
      = (true, ws ++ [hs.map (fun c => recGet row c)]) :=
    upsert_eq_append row key_col hs ws hens hmem hkey hnomatch
  have hens1 := ensure_stable_append hhs hens (hs.map (fun c => recGet row c))
  have hkv2 : pyStrip (recGet row2 key_col) = pyStrip (recGet row key_col) := by
    rw [hrow2, pyStrip_idem]
  have hkey2 : pyStrip (recGet row2 key_col) ≠ "" := by
    rw [hkv2]
    exact hkey
  have hnone := (findKeyRow_none_iff _ _).mp hnomatch
  have hlen1 : (colValues ws (hs.indexOf key_col)).length = ws.length :=
    length_colValues ws _
  have hfk2 : findKeyRow (colValues (ws ++ [hs.map (fun c => recGet row c)])
      (hs.indexOf key_col)) (pyStrip (recGet row2 key_col)) = some (ws.length + 1) := by
    rw [colValues_append_singleton, hkv2]
    apply findKeyRow_some_of
    · exact hwslen
    · simp [hlen1]
    · rw [List.getD_append_right _ _ _ _ (by omega), hlen1, Nat.sub_self]
      simp [houtcell]
    · intro jj hj1 hj2
      rw [List.getD_append _ _ _ _ (by omega)]
      exact hnone _ (getD_mem_drop_one hj1 (by omega))
  have hsetlt : ws.length < (ws ++ [hs.map (fun c => recGet row c)]).length := by simp
  have h4 := upsert_eq_replace row2 key_col hs
    (ws ++ [hs.map (fun c => recGet row c)]) hens1 hmem hkey2 hfk2
  rw [Nat.add_sub_cancel, setRow_eq_set hsetlt] at h4
  refine ⟨h1, houtcell, ?_, h4⟩
  rw [houtcell]
  exact hwsp

/-- C10 witness: upserting a record keyed `" A1 "` onto a header-only
worksheet stores the whitespace, and a second upsert keyed `"A1"` replaces
that same appended row. -/
theorem upsert_strip_compare_store_raw_witness :
    upsert_sheet_row [("ID_RESERVA", "A1"), ("NAME", "Jo2")] "ID_RESERVA"
        (some ["ID_RESERVA", "NAME"])
        ([["ID_RESERVA", "NAME"]] ++ [["ID_RESERVA", "NAME"].map
          (fun c => recGet [("ID_RESERVA", " A1 "), ("NAME", "Jo")] c)])
      = (true, ([["ID_RESERVA", "NAME"]] ++ [["ID_RESERVA", "NAME"].map
          (fun c => recGet [("ID_RESERVA", " A1 "), ("NAME", "Jo")] c)]).set 1
          (["ID_RESERVA", "NAME"].map
            (fun c => recGet [("ID_RESERVA", "A1"), ("NAME", "Jo2")] c))) :=
  (upsert_strip_compare_store_raw
    [("ID_RESERVA", " A1 "), ("NAME", "Jo")] [("ID_RESERVA", "A1"), ("NAME", "Jo2")]
    "ID_RESERVA" ["ID_RESERVA", "NAME"] [["ID_RESERVA", "NAME"]]
    (by decide) (by decide) (by decide) (by decide) (by decide) (by decide)).2.2.2

/-- C3: on a worksheet whose header row contains the key column, once the
scan locates the row for the given id, `update_sheet_fields_by_id` returns
`true` and overwrites exactly the cells of that row named by update keys
that appear in the header (`none` values become `""`, update keys absent
from the header are ignored), leaving every other cell of that row — and
every other row — unchanged. -/
theorem update_fields_overwrites_exactly_named_cells
    (id_value : String) (updates : Updates) (key_col : String) (ws : Ws) (i : Nat)
    (hupd : updates ≠ [])
    (hhead : rowValues ws 0 ≠ [])
    (hmem : key_col ∈ rowValues ws 0)
    (hndH : (rowValues ws 0).Nodup)
    (hndU : (updates.map Prod.fst).Nodup)
    (hfk : findKeyRow (colValues ws ((rowValues ws 0).indexOf key_col))
      (pyStrip id_value) = some i) :
    (update_sheet_fields_by_id id_value updates key_col ws).1 = true
    ∧ (update_sheet_fields_by_id id_value updates key_col ws).2.length = ws.length
    ∧ (∀ j, j ≠ i - 1 →
        (update_sheet_fields_by_id id_value updates key_col ws).2.getD j []
          = ws.getD j [])
    ∧ (∀ jj, jj < (rowValues ws 0).length →
        cellAt ((update_sheet_fields_by_id id_value updates key_col ws).2.getD (i - 1) []) jj
          = match updates.lookup ((rowValues ws 0).getD jj "") with
            | some v => updVal v
            | none => cellAt (ws.getD (i - 1) []) jj)
    ∧ (∀ jj, (rowValues ws 0).length ≤ jj →
        cellAt ((update_sheet_fields_by_id id_value updates key_col ws).2.getD (i - 1) []) jj
          = cellAt (ws.getD (i - 1) []) jj) := by
  obtain ⟨h2i, hltc, _, _⟩ := findKeyRow_some _ _ _ hfk
  have hlt : i - 1 < ws.length := by rwa [length_colValues] at hltc
  have hres := update_fields_eq_hit id_value updates key_col ws hupd hhead hmem hfk
  rw [setRow_eq_set hlt] at hres
  have hpadlen : (rowValues ws 0).length
      ≤ (if (rowValues ws (i - 1)).length < (rowValues ws 0).length then
          rowValues ws (i - 1)
            ++ List.replicate
                ((rowValues ws 0).length - (rowValues ws (i - 1)).length) ""
        else rowValues ws (i - 1)).length :=
    padRow_length _ _
  refine ⟨by rw [hres], by rw [hres]; simp, ?_, ?_, ?_⟩
  · intro j hj
    simp only [hres]
    exact getD_set_ne hj
  · intro jj hjj
    simp only [hres, cellAt]
    rw [getD_set_self hlt, applyUpdates_getD hndU hndH hjj hpadlen]
    rcases hlook : updates.lookup ((rowValues ws 0).getD jj "") with _ | w
    · simp only [hlook]
      rw [padRow_getD]
      rfl
    · simp only [hlook]
  · intro jj hjj
    simp only [hres, cellAt]
    rw [getD_set_self hlt, applyUpdates_getD_ge hjj, padRow_getD]
    rfl

/-- C3 witness: a concrete partial update of the `NAME` field on row `A2`
changes only that cell. -/
theorem update_fields_overwrites_exactly_named_cells_witness :
    (update_sheet_fields_by_id "A2" [("NAME", some "Anna")] "ID_RESERVA"
        [["ID_RESERVA", "NAME"], ["A1", "Jo"], ["A2", "Ana"]]).1 = true
    ∧ (update_sheet_fields_by_id "A2" [("NAME", some "Anna")] "ID_RESERVA"
        [["ID_RESERVA", "NAME"], ["A1", "Jo"], ["A2", "Ana"]]).2.getD 1 []
        = ["A1", "Jo"] :=
  ⟨(update_fields_overwrites_exactly_named_cells "A2" [("NAME", some "Anna")]
      "ID_RESERVA" [["ID_RESERVA", "NAME"], ["A1", "Jo"], ["A2", "Ana"]] 3
      (by decide) (by decide) (by decide) (by decide) (by decide) (by decide)).1,
    (update_fields_overwrites_exactly_named_cells "A2" [("NAME", some "Anna")]
      "ID_RESERVA" [["ID_RESERVA", "NAME"], ["A1", "Jo"], ["A2", "Ana"]] 3
      (by decide) (by decide) (by decide) (by decide) (by decide) (by decide)).2.2.1 1
      (by decide)⟩

/-- C6: `update_sheet_fields_by_id` returns `false` when the updates
mapping is empty, when the remote store is unavailable, when the worksheet
has no header row, when the key column is absent from the header, or when
no row's stripped key-column value matches the stripped id; in the miss
case (on an existing worksheet) it performs no remote write and leaves the
worksheet's rows unchanged. -/
theorem update_fields_error_cases
    (cfg : Config) (wsOpt : Option Ws) (id_value : String) (updates : Updates)
    (key_col : String) (ws : Ws) :
    (updates = [] →
      update_sheet_fields_by_id id_value updates key_col ws = (false, ws)
      ∧ update_sheet_fields_by_id_run cfg wsOpt id_value updates key_col
          = Except.ok (false, wsOpt, []))
    ∧ (_open_spreadsheet cfg = OpenResult.unavailable →
        update_sheet_fields_by_id_run cfg wsOpt id_value updates key_col
          = Except.ok (false, wsOpt, []))
    ∧ (rowValues ws 0 = [] →
        update_sheet_fields_by_id id_value updates key_col ws = (false, ws))
    ∧ (key_col ∉ rowValues ws 0 →
        update_sheet_fields_by_id id_value updates key_col ws = (false, ws))
    ∧ (findKeyRow (colValues ws ((rowValues ws 0).indexOf key_col))
          (pyStrip id_value) = none →
        update_sheet_fields_by_id id_value updates key_col ws = (false, ws))
    ∧ (updates ≠ [] → wsOpt = some ws →
        (∀ sid info, _open_spreadsheet cfg = OpenResult.handle sid info →
          findKeyRow (colValues ws ((rowValues ws 0).indexOf key_col))
              (pyStrip id_value) = none →
          ∃ effs, update_sheet_fields_by_id_run cfg wsOpt id_value updates key_col
              = Except.ok (false, some ws, effs)
            ∧ RemoteEff.writeCall ∉ effs)) := by
  refine ⟨?_, ?_, ?_, ?_, ?_, ?_⟩
  · intro h
    subst h
    exact ⟨update_fields_empty_updates id_value key_col ws, rfl⟩
  · exact update_fields_run_unavailable cfg wsOpt id_value updates key_col
  · exact update_fields_no_header id_value updates key_col ws
  · exact update_fields_key_absent id_value updates key_col ws
  · exact update_fields_miss_false id_value updates key_col ws
  · intro hupd hws sid info hopen hfk
    have h1 : updates.isEmpty = false := by simpa [List.isEmpty_iff] using hupd
    subst hws
    have hcore := update_fields_miss_false id_value updates key_col ws hfk
    refine ⟨RemoteEff.authCall :: ensure_worksheet_effects (some ws) none
        ++ [RemoteEff.readCall]
        ++ (if (rowValues ws 0).isEmpty then []
            else if ¬ (rowValues ws 0).contains key_col then []
            else [RemoteEff.readCall]), ?_, ?_⟩
    · simp only [update_sheet_fields_by_id_run, h1, Bool.false_eq_true, if_false, hopen,
        Option.getD_some]
      rw [hcore]
      by_cases h2 : (rowValues ws 0).isEmpty
      · simp [h2]
      · by_cases h3 : (rowValues ws 0).contains key_col
        · simp only [h2, h3, Bool.false_eq_true, if_false, not_true, ite_false, ite_true]
          rw [hfk]
        · have hnm : key_col ∉ rowValues ws 0 :=
            fun hm => h3 (List.elem_eq_true_of_mem hm)
          simp [h2, h3, hnm]
    · have hens : ensure_worksheet_effects (some ws) none = [RemoteEff.readCall] := rfl
      rw [hens]
      by_cases h2 : (rowValues ws 0).isEmpty
      · simp [h2]
      · by_cases h3 : (rowValues ws 0).contains key_col
        · simp [h2, h3]
        · simp [h2, h3]

/-- C6 witness: empty updates, an unavailable store, and a worksheet with
no header all produce `false` with the worksheet untouched. -/
theorem update_fields_error_cases_witness :
    update_sheet_fields_by_id "Z9" [] "ID_RESERVA" [] = (false, [])
    ∧ update_sheet_fields_by_id_run cfgOff none "Z9" [] "ID_RESERVA"
        = Except.ok (false, none, []) := by
  have h := update_fields_error_cases cfgOff none "Z9" [] "ID_RESERVA" []
  exact ⟨(h.1 rfl).1, h.2.1 (by decide)⟩

/-- C4: `write_sheet_df` on an available worksheet destructively clears
all existing content (the result is independent of the prior grid), writes
the header row, then appends the normalized data rows in order in batches
of at most 500 rows per network call; an empty table yields a worksheet
holding only the header row and the call still returns `true`. -/
theorem write_sheet_df_clear_header_batches
    (df : DF) (headers0 : Option (List String)) (ws0 ws0' : Ws) :
    (write_sheet_df df headers0 ws0).ok = true
    ∧ write_sheet_df df headers0 ws0 = write_sheet_df df headers0 ws0'
    ∧ (write_sheet_df df headers0 ws0).ws
        = (match headers0 with
            | some h => h
            | none => (normalize_df df headers0).cols)
          :: (normalize_df df headers0).data
    ∧ (write_sheet_df df headers0 ws0).batches.flatten = (normalize_df df headers0).data
    ∧ (∀ b ∈ (write_sheet_df df headers0 ws0).batches, b.length ≤ 500)
    ∧ ((normalize_df df headers0).data = [] →
        (write_sheet_df df headers0 ws0).ws
          = [match headers0 with
              | some h => h
              | none => (normalize_df df headers0).cols]
        ∧ (write_sheet_df df headers0 ws0).batches = []) := by
  have hsetnil : ∀ hs : List String, setRow ([] : Ws) 0 hs = [hs] := fun _ => rfl
  have hflat : (chunkRows 500 (normalize_df df headers0).data).flatten
      = (normalize_df df headers0).data :=
    chunkRowsAux_flatten 500 (by omega) _ _ (Nat.le_refl _)
  by_cases hd : (normalize_df df headers0).data = []
  · have he : (normalize_df df headers0).data.isEmpty = true := by simp [hd]
    refine ⟨?_, ?_, ?_, ?_, ?_, ?_⟩
    · simp [write_sheet_df, he]
    · simp [write_sheet_df, he]
    · simp [write_sheet_df, he, hsetnil, hd]
    · simp [write_sheet_df, he, hd]
    · simp [write_sheet_df, he]
    · intro _
      constructor
      · simp [write_sheet_df, he, hsetnil]
      · simp [write_sheet_df, he]
  · have he : (normalize_df df headers0).data.isEmpty = false := by
      simpa [List.isEmpty_iff] using hd
    refine ⟨?_, ?_, ?_, ?_, ?_, ?_⟩
    · simp [write_sheet_df, he]
    · simp [write_sheet_df, he]
    · simp only [write_sheet_df, he, Bool.false_eq_true, if_false, hsetnil]
      rw [foldl_append_eq_flatten, hflat]
      rfl
    · simp only [write_sheet_df, he, Bool.false_eq_true, if_false]
      exact hflat
    · simp only [write_sheet_df, he, Bool.false_eq_true, if_false]
      intro b hb
      exact chunkRowsAux_batch_le 500 (by omega) _ _ b hb
    · intro h
      exact absurd h hd

/-- C4 witness: a concrete normalized write and a concrete empty-table
write evaluated through `write_sheet_df_clear_header_batches`. -/
theorem write_sheet_df_clear_header_batches_witness :
    (write_sheet_df ⟨["B", "A"], [["x", "y"]]⟩ (some ["A", "C"]) [["OLD"]]).ws
      = ["A", "C"] :: (normalize_df ⟨["B", "A"], [["x", "y"]]⟩ (some ["A", "C"])).data
    ∧ (write_sheet_df ⟨["A"], []⟩ none [["OLD"]]).ws = [["A"]]
    ∧ (write_sheet_df ⟨["A"], []⟩ none [["OLD"]]).batches = [] := by
  have h1 := write_sheet_df_clear_header_batches ⟨["B", "A"], [["x", "y"]]⟩
    (some ["A", "C"]) [["OLD"]] []
  have h2 := write_sheet_df_clear_header_batches ⟨["A"], []⟩ none [["OLD"]] []
  exact ⟨h1.2.2.1, (h2.2.2.2.2.2 (by decide)).1, (h2.2.2.2.2.2 (by decide)).2⟩

/-- C5: `_open_spreadsheet` returns the `None` sentinel exactly when the
enable flag is off, the client library is unavailable, no truthy
spreadsheet id is configured, or no truthy credential material resolves
(a credential document that fails JSON parsing counts as none); when all
four checks pass it attempts authentication, whose failure propagates. -/
theorem open_spreadsheet_unavailable_exactly (cfg : Config) :
    (_open_spreadsheet cfg = OpenResult.unavailable ↔
      sheets_enabled cfg = false ∨ cfg.libAvailable = false
      ∨ _secret_get cfg "GOOGLE_SHEETS_SPREADSHEET_ID" = none
      ∨ _secret_get cfg "GOOGLE_SHEETS_SPREADSHEET_ID" = some ""
      ∨ _service_account_info cfg = none
      ∨ _service_account_info cfg = some "")
    ∧ (sheets_enabled cfg = true → cfg.libAvailable = true →
        ∀ sid, _secret_get cfg "GOOGLE_SHEETS_SPREADSHEET_ID" = some sid → sid ≠ "" →
        ∀ info, _service_account_info cfg = some info → info ≠ "" →
        _open_spreadsheet cfg
          = (if cfg.authOk then OpenResult.handle (pyStrip sid) info
             else OpenResult.authError))
    ∧ (cfg.hasStreamlit = false ∨ cfg.gcpServiceAccount = none →
        ∀ raw, _secret_get cfg "GOOGLE_SERVICE_ACCOUNT_JSON" = some raw → raw ≠ "" →
        cfg.parseJson raw = none →
        _service_account_info cfg = none) := by
  refine ⟨?_, ?_, ?_⟩
  · cases hb : sheets_enabled cfg with
    | false =>
      simp only [_open_spreadsheet, hb, Bool.not_false, Bool.true_or, if_true]
      simp
    | true =>
      cases hlib : cfg.libAvailable with
      | false =>
        simp only [_open_spreadsheet, hb, hlib, Bool.not_true, Bool.not_false,
          Bool.false_or, if_true]
        simp
      | true =>
        simp only [_open_spreadsheet, hb, hlib, Bool.not_true, Bool.or_self,
          Bool.false_eq_true, if_false]
        rcases hsid : _secret_get cfg "GOOGLE_SHEETS_SPREADSHEET_ID" with _ | sid
        · simp [hb]
        · by_cases hse : sid = ""
          · subst hse
            simp [hb, hsid]
          · simp only [if_neg hse]
            rcases hinfo : _service_account_info cfg with _ | info
            · simp [hb, hsid, hse]
            · by_cases hie : info = ""
              · subst hie
                simp [hb, hsid, hse, hinfo]
              · simp only [if_neg hie]
                cases hauth : cfg.authOk with
                | false => simp [hb, hsid, hse, hinfo, hie]
                | true => simp [hb, hsid, hse, hinfo, hie]
  · intro hb hlib sid hsid hse info hinfo hie
    simp only [_open_spreadsheet, hb, hlib, Bool.not_true, Bool.or_self,
      Bool.false_eq_true, if_false, hsid, if_neg hse, hinfo, if_neg hie]
  · intro hst raw hraw hre hparse
    have hguard : ¬(cfg.hasStreamlit = true ∧ cfg.gcpServiceAccount.isSome = true) := by
      rcases hst with h | h
      · intro hc
        rw [h] at hc
        exact Bool.false_ne_true hc.1
      · intro hc
        rw [h] at hc
        simp at hc
    simp only [_service_account_info, if_neg hguard, hraw, if_neg hre, hparse]

/-- C5 witness: the empty configuration is unavailable; the fully
configured environment yields a handle on the stripped spreadsheet id. -/
theorem open_spreadsheet_unavailable_exactly_witness :
    _open_spreadsheet cfgOff = OpenResult.unavailable
    ∧ _open_spreadsheet cfgFull = OpenResult.handle "SSID1" "sa-info" := by
  constructor
  · exact ((open_spreadsheet_unavailable_exactly cfgOff).1).mpr (Or.inl (by decide))
  · have h := (open_spreadsheet_unavailable_exactly cfgFull).2.1 (by decide) (by decide)
      " SSID1 " (by decide) (by decide) "sa-info" (by decide) (by decide)
    rw [h]
    decide

/-- C7: when the enable flag resolves to false (or is absent), every
public operation returns its unavailable result — the empty table for the
read, `false` for the writes — leaves the worksheet untouched, and
performs no remote network call. -/
theorem disabled_operations_offline
    (cfg : Config) (hflag : sheets_enabled cfg = false)
    (wsOpt : Option Ws) (headers : Option (List String)) (df : DF)
    (row : Record) (key_col : String) (id_value : String) (updates : Updates) :
    read_sheet_df_run cfg wsOpt headers
      = Except.ok (⟨headers.getD [], []⟩, wsOpt, [])
    ∧ write_sheet_df_run cfg wsOpt df headers = Except.ok (false, wsOpt, [])
    ∧ upsert_sheet_row_run cfg wsOpt row key_col headers
      = Except.ok (false, wsOpt, [])
    ∧ update_sheet_fields_by_id_run cfg wsOpt id_value updates key_col
      = Except.ok (false, wsOpt, []) := by
  have hopen : _open_spreadsheet cfg = OpenResult.unavailable := by
    simp [_open_spreadsheet, hflag]
  refine ⟨?_, ?_, ?_, ?_⟩
  · simp [read_sheet_df_run, hopen]
  · simp [write_sheet_df_run, hopen]
  · simp [upsert_sheet_row_run, hopen]
  · exact update_fields_run_unavailable cfg wsOpt id_value updates key_col hopen

/-- C7 witness: all four operations run against the empty configuration. -/
theorem disabled_operations_offline_witness :
    read_sheet_df_run cfgOff (some [["H"]]) (some ["H"])
        = Except.ok (⟨["H"], []⟩, some [["H"]], [])
    ∧ write_sheet_df_run cfgOff (some [["H"]]) ⟨["H"], [["x"]]⟩ (some ["H"])
        = Except.ok (false, some [["H"]], [])
    ∧ upsert_sheet_row_run cfgOff (some [["H"]]) [("H", "v")] "H" (some ["H"])
        = Except.ok (false, some [["H"]], [])
    ∧ update_sheet_fields_by_id_run cfgOff (some [["H"]]) "v" [("H", some "w")] "H"
        = Except.ok (false, some [["H"]], []) :=
  disabled_operations_offline cfgOff (by decide) (some [["H"]]) (some ["H"])
    ⟨["H"], [["x"]]⟩ [("H", "v")] "H" "v" [("H", some "w")]

/-- C8 counterexample: when both the environment and the secret store
supply service-account credential material, the resolver returns the
secret store's structured entry, not the environment's value. -/
theorem env_precedence_creds_counterexample :
    cfgBothCreds.env "GOOGLE_SERVICE_ACCOUNT_JSON" = some "sa-json"
    ∧ cfgBothCreds.parseJson "sa-json" = some "env-info"
    ∧ cfgBothCreds.gcpServiceAccount = some "secret-info"
    ∧ _service_account_info cfgBothCreds = some "secret-info"
    ∧ _service_account_info cfgBothCreds ≠ some "env-info" := by decide

/-- C8 (amended): for same-name lookups `_secret_get` returns the
environment's value whenever the environment supplies one; but for
service-account credential material a structured `gcp_service_account`
secret-store entry takes precedence over the environment's
`GOOGLE_SERVICE_ACCOUNT_JSON`. -/
theorem env_precedence_same_name_only (cfg : Config) (name : String) (v : String)
    (henv : cfg.env name = some v) :
    _secret_get cfg name = some v
    ∧ (∀ d, cfg.hasStreamlit = true → cfg.gcpServiceAccount = some d →
        _service_account_info cfg = some d) := by
  constructor
  · simp [_secret_get, henv]
  · intro d hst hg
    simp [_service_account_info, hst, hg]

/-- C8 witness: on the clashing configuration the same-name lookup
returns the environment string while the credential resolver returns the
structured secret entry. -/
theorem env_precedence_same_name_only_witness :
    _secret_get cfgBothCreds "GOOGLE_SERVICE_ACCOUNT_JSON" = some "sa-json"
    ∧ _service_account_info cfgBothCreds = some "secret-info" := by
  have h := env_precedence_same_name_only cfgBothCreds "GOOGLE_SERVICE_ACCOUNT_JSON"
    "sa-json" (by decide)
  exact ⟨h.1, h.2 "secret-info" (by decide) (by decide)⟩

/-- C9 counterexample: ensuring an existing worksheet while supplying
expected headers performs two remote reads (the existence fetch and the
header fetch), so "at most one remote read" fails; with the worksheet
absent, two remote writes (creation and header init) occur as well. -/
theorem ensure_worksheet_single_call_counterexample :
    countReads (ensure_worksheet_effects (some [["x"]]) (some ["h"])) = 2
    ∧ countWrites (ensure_worksheet_effects none (some ["h"])) = 2
    ∧ ¬(countReads (ensure_worksheet_effects (some [["x"]]) (some ["h"])) ≤ 1) := by
  decide

/-- C9 (amended): every `_ensure_worksheet` call performs at most two
remote reads (existence fetch, header fetch) and at most two remote
writes (worksheet creation, header initialization), for every spreadsheet
state and every value of the optional expected-headers argument. -/
theorem ensure_worksheet_effects_bounds (wsOpt : Option Ws)
    (headers : Option (List String)) :
    countReads (ensure_worksheet_effects wsOpt headers) ≤ 2
    ∧ countWrites (ensure_worksheet_effects wsOpt headers) ≤ 2 := by
  rcases wsOpt with _ | ws
  · rcases headers with _ | hs
    · decide
    · by_cases h1 : hs.isEmpty
      · simp only [ensure_worksheet_effects, h1, if_true]
        decide
      · have h1f : hs.isEmpty = false := by simpa using h1
        simp only [ensure_worksheet_effects, h1f, Bool.false_eq_true, if_false]
        by_cases h2 : rowIsBlank ((Option.getD (none : Option Ws) []).headD [])
        · simp only [h2, if_true]
          decide
        · have h2f : rowIsBlank ((Option.getD (none : Option Ws) []).headD []) = false := by
            simpa using h2
          simp only [h2f, Bool.false_eq_true, if_false]
          decide
  · rcases headers with _ | hs
    · have h : ensure_worksheet_effects (some ws) none = [RemoteEff.readCall] := rfl
      rw [h]
      decide
    · by_cases h1 : hs.isEmpty
      · simp only [ensure_worksheet_effects, h1, if_true]
        decide
      · have h1f : hs.isEmpty = false := by simpa using h1
        simp only [ensure_worksheet_effects, h1f, Bool.false_eq_true, if_false]
        by_cases h2 : rowIsBlank ((Option.getD (some ws) []).headD [])
        · simp only [h2, if_true]
          decide
        · have h2f : rowIsBlank ((Option.getD (some ws) []).headD []) = false := by
            simpa using h2
          simp only [h2f, Bool.false_eq_true, if_false]
          decide

end SheetsStore
